import Mathlib

/-!
Verification development for the Postgres background job queue provider
(`src/bgworker/pg.rs`).  The database table `pg_loco_queue` is embedded as a
list of raw rows; each SQL statement of the source is transcribed as a pure
function on that list, with the database clock `NOW()` passed explicitly as an
integer count of UTC milliseconds.  JSONB values are embedded by an inductive
`Json` type together with the Postgres operators the source uses
(the containment test `?` and concatenation `||`).
-/

set_option autoImplicit false

namespace LocoPg

/-- Embedding of JSONB values: null, booleans, integers, strings, arrays and
objects (an object is a list of key/value fields). -/
inductive Json where
  | null
  | bool (b : Bool)
  | num (n : Int)
  | str (s : String)
  | arr (elems : List Json)
  | obj (fields : List (String × Json))
  deriving Repr

/-- Postgres `jsonb ? text` existence operator: for an array, tests whether the
text occurs as a top-level string element; for an object, whether it occurs as a
key; for a string scalar, equality; false otherwise. -/
def jsonbHasKey (j : Json) (k : String) : Bool :=
  match j with
  | .arr xs => xs.any (fun e => match e with | .str s => s == k | _ => false)
  | .obj kvs => kvs.any (fun kv => kv.1 == k)
  | .str s => s == k
  | _ => false

/-- Elements contributed by one operand of Postgres `jsonb || jsonb` when the
result is an array: an array contributes its elements, anything else
contributes itself as a single element. -/
def jsonbToArrayElems (j : Json) : List Json :=
  match j with
  | .arr xs => xs
  | other => [other]

/-- Right-biased merge of two JSONB objects: fields of the right operand win on
key collision. -/
def objMergeRight (a b : List (String × Json)) : List (String × Json) :=
  a.filter (fun kv => !(b.any (fun kv2 => kv2.1 == kv.1))) ++ b

/-- Postgres `jsonb || jsonb` concatenation, as used by `fail_job`
(`task_data = task_data || $2::jsonb`): two objects merge (right wins);
in every other case both operands are treated as arrays (a non-array operand
becomes a one-element array) and the arrays are concatenated. -/
def jsonbConcat (a b : Json) : Json :=
  match a, b with
  | .obj ka, .obj kb => .obj (objMergeRight ka kb)
  | x, y => .arr (jsonbToArrayElems x ++ jsonbToArrayElems y)

/-- Job status enum from `bgworker` (referenced by `pg.rs` as
`super::JobStatus`). -/
inductive JobStatus where
  | queued
  | processing
  | completed
  | failed
  | cancelled
  deriving Repr, DecidableEq

/-- Modelled from the spec: the textual serialization of `JobStatus`
(its `Display` impl lives in `bgworker/mod.rs`, which is not under `src/`);
the spec states the status is serialized as its lowercase textual name. -/
def statusText : JobStatus → String
  | .queued => "queued"
  | .processing => "processing"
  | .completed => "completed"
  | .failed => "failed"
  | .cancelled => "cancelled"

/-- Modelled from the spec: parsing a status string (the `FromStr` impl lives
in `bgworker/mod.rs`, not under `src/`); the spec states that each status
parses from its lowercase textual name and parsing an unknown value is an
error. -/
def parseStatus (s : String) : Option JobStatus :=
  if s = "queued" then some .queued
  else if s = "processing" then some .processing
  else if s = "completed" then some .completed
  else if s = "failed" then some .failed
  else if s = "cancelled" then some .cancelled
  else none

/-- One row of the `pg_loco_queue` table (schema from `initialize_database`).
Timestamps are UTC epoch milliseconds; `tags` is a nullable JSONB column. -/
structure RawRow where
  id : String
  name : String
  task_data : Json
  status : String
  run_at : Int
  interval : Option Int
  created_at : Int
  updated_at : Int
  tags : Option Json
  deriving Repr

/-- The materialized `Job` struct of `pg.rs`. -/
structure Job where
  id : String
  name : String
  data : Json
  status : JobStatus
  run_at : Int
  interval : Option Int
  created_at : Option Int
  updated_at : Option Int
  tags : Option (List String)
  deriving Repr

/-- Decoding of a JSON array into `Vec<String>`
(`serde_json::from_value::<Vec<String>>`): succeeds iff every element is a
string. -/
def decodeStringArray : List Json → Option (List String)
  | [] => some []
  | .str s :: rest => (decodeStringArray rest).map (fun ss => s :: ss)
  | _ => none

/-- Tag normalization in `to_job`: a JSON array is decoded to strings (a failed
decode yields the empty vector); an empty result or a non-array value yields
absent. -/
def normalizeTags (tagsJson : Option Json) : Option (List String) :=
  tagsJson.bind (fun j =>
    match j with
    | .arr xs =>
      let tagsVec := (decodeStringArray xs).getD []
      if tagsVec.isEmpty then none else some tagsVec
    | _ => none)

/-- Row materializer `to_job` of `pg.rs`: extracts each column; an
unparseable status string yields the error string used by the source. -/
def to_job (r : RawRow) : Except String Job :=
  match parseStatus r.status with
  | none => .error "invalid job status"
  | some st =>
    .ok { id := r.id, name := r.name, data := r.task_data, status := st,
          run_at := r.run_at, interval := r.interval,
          created_at := some r.created_at, updated_at := some r.updated_at,
          tags := normalizeTags r.tags }

/-- Tag filter of the claim query in `dequeue`: an untagged worker requires
`tags IS NULL`; a tagged worker requires `tags IS NOT NULL` and a disjunction
of `(tags)::jsonb ? tag` over its tags. -/
def tagMatch (workerTags : List String) (rowTags : Option Json) : Bool :=
  if workerTags.isEmpty then rowTags.isNone
  else
    match rowTags with
    | none => false
    | some j => workerTags.any (fun t => jsonbHasKey j t)

/-- The full `WHERE` predicate of the claim query:
`status = 'queued' AND run_at <= NOW()` together with the tag filter. -/
def eligible (now : Int) (workerTags : List String) (r : RawRow) : Bool :=
  (r.status == statusText .queued) && decide (r.run_at ≤ now)
    && tagMatch workerTags r.tags

/-- `ORDER BY run_at LIMIT 1`: pick a row with minimal `run_at` from the
already-filtered eligible rows (ties are implementation-defined in the
database; here the earliest listed row wins). -/
def pickEarliest : List RawRow → Option RawRow
  | [] => none
  | r :: rs =>
    match pickEarliest rs with
    | none => some r
    | some b => if b.run_at < r.run_at then some b else some r

/-- The fetch step of `dequeue`: the claim query returns at most one eligible
row, earliest `run_at` first. -/
def selectEligible (db : List RawRow) (workerTags : List String) (now : Int) :
    Option RawRow :=
  pickEarliest (db.filter (eligible now workerTags))

/-- The update statement inside the claim transaction:
`UPDATE pg_loco_queue SET status = 'processing', updated_at = NOW() WHERE id = $2`. -/
def setProcessing (now : Int) (jid : String) (db : List RawRow) : List RawRow :=
  db.map (fun r =>
    if r.id = jid then
      { r with status := statusText .processing, updated_at := now }
    else r)

/-- The tail of `dequeue` after the fetch (`pg.rs` lines 334-353): the fetched
row is materialized with `to_job(&row).ok()` and flattened; a job triggers the
processing update and a commit, otherwise the transaction ends with no
mutation and success-with-nothing is returned. -/
def dequeueHandleRow (db : List RawRow) (now : Int) (fetched : Option RawRow) :
    Except String (Option Job × List RawRow) :=
  match fetched.bind (fun r => (to_job r).toOption) with
  | some job => .ok (some job, setProcessing now job.id db)
  | none => .ok (none, db)

/-- The claim protocol `dequeue`: one transaction that fetches the earliest
eligible row and, when one materializes, marks it processing. -/
def dequeue (db : List RawRow) (workerTags : List String) (now : Int) :
    Except String (Option Job × List RawRow) :=
  dequeueHandleRow db now (selectEligible db workerTags now)

/-- `complete_job`: computes the target status and `run_at` from the optional
interval (absent: Completed at now; present: Queued at now plus the interval
in milliseconds), then runs
`UPDATE pg_loco_queue SET status = $1, updated_at = NOW(), run_at = $2 WHERE id = $3`. -/
def completeJob (db : List RawRow) (jid : String) (intervalMs : Option Int)
    (now : Int) : List RawRow :=
  let stRun : String × Int :=
    match intervalMs with
    | none => (statusText .completed, now)
    | some ms => (statusText .queued, now + ms)
  db.map (fun r =>
    if r.id = jid then
      { r with status := stRun.1, updated_at := now, run_at := stRun.2 }
    else r)

/-- `fail_job`: stringifies the handler error and runs
`UPDATE pg_loco_queue SET status = 'failed', updated_at = NOW(),
task_data = task_data || $2::jsonb WHERE id = $3` where `$2` is the object
with the single field `error`. -/
def failJob (db : List RawRow) (jid : String) (errMsg : String) (now : Int) :
    List RawRow :=
  db.map (fun r =>
    if r.id = jid then
      { r with status := statusText .failed, updated_at := now,
               task_data := jsonbConcat r.task_data (.obj [("error", .str errMsg)]) }
    else r)

/-- `cancel_jobs_by_name`:
`UPDATE pg_loco_queue SET status = 'cancelled', updated_at = NOW()
WHERE name = $2 AND status = 'queued'`. -/
def cancelJobsByName (db : List RawRow) (name : String) (now : Int) :
    List RawRow :=
  db.map (fun r =>
    if r.name = name ∧ r.status = statusText .queued then
      { r with status := statusText .cancelled, updated_at := now }
    else r)

/-- `requeue`:
`UPDATE pg_loco_queue SET status = 'queued', updated_at = NOW()
WHERE status = 'processing' AND updated_at <= NOW() - INTERVAL 'age_minutes MINUTE'`
(one minute is 60000 milliseconds). -/
def requeueStalled (db : List RawRow) (ageMinutes : Int) (now : Int) :
    List RawRow :=
  db.map (fun r =>
    if r.status = statusText .processing ∧ r.updated_at ≤ now - ageMinutes * 60000 then
      { r with status := statusText .queued, updated_at := now }
    else r)

/-- The deletion predicate built by `clear_jobs_older_than`:
`created_at < NOW() - INTERVAL '1 day' * age_days` (one day is 86400000
milliseconds), and the clause `AND status IN (...)` is appended only when a
status list is given and that list is non-empty. -/
def clearOlderDeletes (ageDays : Int) (status : Option (List JobStatus))
    (now : Int) (r : RawRow) : Bool :=
  decide (r.created_at < now - ageDays * 86400000) &&
    (match status with
     | none => true
     | some ss =>
       if ss.isEmpty then true else ss.any (fun s => statusText s == r.status))

/-- `clear_jobs_older_than`: `DELETE FROM pg_loco_queue WHERE ...` with the
predicate above; the surviving table keeps exactly the non-matching rows. -/
def clearJobsOlderThan (db : List RawRow) (ageDays : Int)
    (status : Option (List JobStatus)) (now : Int) : List RawRow :=
  db.filter (fun r => !(clearOlderDeletes ageDays status now r))

/-- The payload of a caught Rust panic, as inspected by the wrapped handler in
`register_worker`: a `String` payload, a string-slice payload, or any other
`Any` payload. -/
inductive PanicPayload where
  | ofString (s : String)
  | ofStrRef (s : String)
  | opaquePayload
  deriving Repr, DecidableEq

/-- The downcast chain of `register_worker`
(`downcast_ref::<String>` then string-slice, else the fallback message). -/
def panicMessage : PanicPayload → String
  | .ofString s => s
  | .ofStrRef s => s
  | .opaquePayload => "Unknown panic occurred"

/-- Outcome of the user perform routine: normal success, a returned error, or
a panic carrying a payload. -/
inductive PerformOutcome where
  | success
  | failure (msg : String)
  | panicked (payload : PanicPayload)
  deriving Repr

/-- The wrapped handler built by `register_worker` (`pg.rs` lines 72-96):
deserialization failure becomes an error; otherwise the perform routine runs
under `catch_unwind`, whose caught-panic branch is modelled by the `panicked`
outcome and converted into an error via the downcast chain.  The wrapper is a
total function into `Except`, so a panic never escapes to the worker task. -/
def runWrappedHandler {Args : Type} (deserialized : Except String Args)
    (perform : Args → PerformOutcome) : Except String Unit :=
  match deserialized with
  | .error e => .error e
  | .ok args =>
    match perform args with
    | .success => .ok ()
    | .failure msg => .error msg
    | .panicked p => .error (panicMessage p)

/-- The `JobRegistry`: a map from job name to handler behind an `Arc`.
Modelled from the spec: shared ownership of the handler map
(`Arc` is from the standard library, outside this repository) is embedded as a
count of outstanding shared snapshots; `Arc::get_mut` succeeds exactly when no
snapshot is outstanding. -/
structure JobRegistry (H : Type) where
  handlers : List (String × H)
  sharedSnapshots : Nat

/-- `HashMap::insert`: a binding for the name replaces any existing binding. -/
def insertHandler {H : Type} (m : List (String × H)) (name : String) (h : H) :
    List (String × H) :=
  m.filter (fun kv => !(kv.1 == name)) ++ [(name, h)]

/-- `register_worker` on the registry state: `Arc::get_mut` on the handler map
either fails with the source error message (when the map is shared) or inserts
the wrapped handler under the given name. -/
def registerWorker {H : Type} (reg : JobRegistry H) (name : String) (h : H) :
    Except String (JobRegistry H) :=
  if reg.sharedSnapshots = 0 then
    .ok { reg with handlers := insertHandler reg.handlers name h }
  else
    .error "cannot register worker"

/-- `JobRegistry::run` (and `handlers()`) hand out a clone of the `Arc`,
leaving the map shared. -/
def cloneHandlers {H : Type} (reg : JobRegistry H) : JobRegistry H :=
  { reg with sharedSnapshots := reg.sharedSnapshots + 1 }

/-! ## Helper lemmas -/

theorem pickEarliest_eq_none {xs : List RawRow} :
    pickEarliest xs = none ↔ xs = [] := by
  cases xs with
  | nil => simp [pickEarliest]
  | cons r rs =>
    simp only [pickEarliest]
    cases h : pickEarliest rs with
    | none => simp
    | some b =>
      constructor
      · intro hc
        by_cases hlt : b.run_at < r.run_at <;> simp [hlt] at hc
      · intro hc
        exact absurd hc (List.cons_ne_nil r rs)

theorem pickEarliest_mem {xs : List RawRow} :
    ∀ {m : RawRow}, pickEarliest xs = some m → m ∈ xs := by
  induction xs with
  | nil => intro m h; simp [pickEarliest] at h
  | cons r rs ih =>
    intro m h
    simp only [pickEarliest] at h
    cases hrs : pickEarliest rs with
    | none =>
      rw [hrs] at h
      simp at h
      simp [h]
    | some b =>
      rw [hrs] at h
      by_cases hlt : b.run_at < r.run_at
      · simp [hlt] at h
        exact List.mem_cons_of_mem r (h ▸ ih hrs)
      · simp [hlt] at h
        simp [h]

theorem pickEarliest_min {xs : List RawRow} :
    ∀ {m : RawRow}, pickEarliest xs = some m → ∀ x ∈ xs, m.run_at ≤ x.run_at := by
  induction xs with
  | nil => intro m h; simp [pickEarliest] at h
  | cons r rs ih =>
    intro m h
    simp only [pickEarliest] at h
    intro x hx
    cases hrs : pickEarliest rs with
    | none =>
      rw [hrs] at h
      simp at h
      rcases List.mem_cons.1 hx with hxr | hxrs
      · simp [h, hxr]
      · exact absurd (pickEarliest_eq_none.1 hrs ▸ hxrs) (List.not_mem_nil x)
    | some b =>
      rw [hrs] at h
      by_cases hlt : b.run_at < r.run_at
      · simp [hlt] at h
        subst h
        rcases List.mem_cons.1 hx with hxr | hxrs
        · exact hxr ▸ le_of_lt hlt
        · exact ih hrs x hxrs
      · simp [hlt] at h
        subst h
        rcases List.mem_cons.1 hx with hxr | hxrs
        · exact hxr ▸ le_refl _
        · exact le_trans (not_lt.1 hlt) (ih hrs x hxrs)

theorem eligible_iff {now : Int} {workerTags : List String} {r : RawRow} :
    eligible now workerTags r = true ↔
      r.status = statusText .queued ∧ r.run_at ≤ now ∧
        tagMatch workerTags r.tags = true := by
  simp [eligible, and_assoc]

theorem to_job_of_queued (r : RawRow) (h : r.status = statusText .queued) :
    to_job r = .ok
      { id := r.id, name := r.name, data := r.task_data,
        status := .queued, run_at := r.run_at, interval := r.interval,
        created_at := some r.created_at, updated_at := some r.updated_at,
        tags := normalizeTags r.tags } := by
  simp [to_job, h, statusText, parseStatus]

/-! ## Claims -/

/-- C1: For every worker tag list, `dequeue` returns at most one job, chosen
among rows with status Queued and `run_at <= NOW()` (and matching the tag
filter), with `run_at` minimal among the eligible rows; in the same
transaction the chosen row gets status Processing and `updated_at = NOW()`
while every other row is untouched, and the materialized Job is returned; when
no eligible row exists, nothing is returned and no row is mutated. -/
theorem dequeue_claim_protocol (db : List RawRow) (workerTags : List String)
    (now : Int) :
    match dequeue db workerTags now with
    | .ok (some job, db2) =>
        ∃ r, r ∈ db ∧
          r.status = statusText JobStatus.queued ∧
          r.run_at ≤ now ∧
          eligible now workerTags r = true ∧
          (∀ r2 ∈ db, eligible now workerTags r2 = true → r.run_at ≤ r2.run_at) ∧
          to_job r = Except.ok job ∧
          job.id = r.id ∧
          db2 = db.map (fun r2 =>
            if r2.id = r.id then
              { r2 with status := statusText JobStatus.processing,
                        updated_at := now }
            else r2)
    | .ok (none, db2) => db2 = db ∧ ∀ r ∈ db, eligible now workerTags r = false
    | .error _ => False := by
  unfold dequeue
  cases h : selectEligible db workerTags now with
  | none =>
    simp only [dequeueHandleRow, Option.bind_none]
    refine ⟨rfl, ?_⟩
    intro r hr
    by_contra habs
    have hel : eligible now workerTags r = true := by
      cases he : eligible now workerTags r with
      | false => exact absurd he habs
      | true => rfl
    have hmem : r ∈ db.filter (eligible now workerTags) :=
      List.mem_filter.2 ⟨hr, hel⟩
    have hnilf : db.filter (eligible now workerTags) = [] :=
      pickEarliest_eq_none.1 h
    rw [hnilf] at hmem
    exact List.not_mem_nil r hmem
  | some r =>
    have hmem : r ∈ db.filter (eligible now workerTags) := pickEarliest_mem h
    have hel : eligible now workerTags r = true := (List.mem_filter.1 hmem).2
    have hq : r.status = statusText .queued := (eligible_iff.1 hel).1
    have hdue : r.run_at ≤ now := (eligible_iff.1 hel).2.1
    have hjob := to_job_of_queued r hq
    simp only [dequeueHandleRow, Option.some_bind, hjob, Except.toOption]
    refine ⟨r, (List.mem_filter.1 hmem).1, hq, hdue, hel, ?_, hjob, rfl, rfl⟩
    intro r2 hr2 hel2
    exact pickEarliest_min h r2 (List.mem_filter.2 ⟨hr2, hel2⟩)

theorem map_str_inj {ss1 ss2 : List String}
    (h : ss1.map Json.str = ss2.map Json.str) : ss1 = ss2 :=
  (List.map_injective_iff.2 (fun _ _ hab => Json.str.inj hab)) h

theorem any_hasKey_strArray (w : List String) (ss : List String) :
    (w.any (fun tg => jsonbHasKey (Json.arr (ss.map Json.str)) tg) = true) ↔
      ∃ x ∈ w, x ∈ ss := by
  simp [jsonbHasKey, List.any_map, Function.comp, List.any_eq_true]

theorem tagMatch_iff (workerTags : List String) (t : Option Json)
    (hwf : t = none ∨ ∃ ss : List String, t = some (Json.arr (ss.map Json.str))) :
    tagMatch workerTags t = true ↔
      ((workerTags = [] ∧ t = none) ∨
       (workerTags ≠ [] ∧ ∃ ss : List String, t = some (Json.arr (ss.map Json.str)) ∧
          ∃ x ∈ workerTags, x ∈ ss)) := by
  cases workerTags with
  | nil =>
    rcases hwf with hn | ⟨ss, hss⟩
    · subst hn; simp [tagMatch]
    · subst hss; simp [tagMatch]
  | cons w ws =>
    rcases hwf with hn | ⟨ss, hss⟩
    · subst hn; simp [tagMatch]
    · subst hss
      simp only [tagMatch, List.isEmpty_cons, Bool.false_eq_true, if_false]
      rw [any_hasKey_strArray (w :: ws) ss]
      constructor
      · intro hx
        exact Or.inr ⟨List.cons_ne_nil w ws, ss, rfl, hx⟩
      · rintro (⟨hcon, -⟩ | ⟨-, ss2, heq, x, hxw, hxss⟩)
        · exact absurd hcon (List.cons_ne_nil w ws)
        · have hss2 : ss2 = ss :=
            map_str_inj (Json.arr.inj (Option.some.inj heq)).symm
          exact ⟨x, hxw, hss2 ▸ hxss⟩

/-- C2: A worker with tag list W can claim a (due, queued, well-formed) job
row J by `dequeue` iff either W is empty and the tags column of J is NULL, or
W is non-empty, the tags column is a JSON string array, and that array
contains at least one element of W. -/
theorem dequeue_tag_routing (r : RawRow) (workerTags : List String) (now : Int)
    (hq : r.status = statusText JobStatus.queued)
    (hdue : r.run_at ≤ now)
    (hwf : r.tags = none ∨ ∃ ss : List String, r.tags = some (Json.arr (ss.map Json.str))) :
    (∃ job db2, dequeue [r] workerTags now = .ok (some job, db2)) ↔
      ((workerTags = [] ∧ r.tags = none) ∨
       (workerTags ≠ [] ∧ ∃ ss : List String, r.tags = some (Json.arr (ss.map Json.str)) ∧
          ∃ t ∈ workerTags, t ∈ ss)) := by
  rw [← tagMatch_iff workerTags r.tags hwf]
  constructor
  · rintro ⟨job, db2, hj⟩
    by_contra htm
    have htm2 : tagMatch workerTags r.tags = false := by
      cases hv : tagMatch workerTags r.tags
      · rfl
      · exact absurd hv htm
    have hel : eligible now workerTags r = false := by
      simp [eligible, htm2]
    simp [dequeue, selectEligible, dequeueHandleRow, pickEarliest,
          List.filter_cons, hel] at hj
  · intro htm
    have hel : eligible now workerTags r = true :=
      eligible_iff.2 ⟨hq, hdue, htm⟩
    refine ⟨{ id := r.id, name := r.name, data := r.task_data,
              status := .queued, run_at := r.run_at, interval := r.interval,
              created_at := some r.created_at,
              updated_at := some r.updated_at,
              tags := normalizeTags r.tags },
            setProcessing now r.id [r], ?_⟩
    simp [dequeue, selectEligible, dequeueHandleRow, List.filter_cons, hel,
          pickEarliest, to_job_of_queued r hq, Option.some_bind,
          Except.toOption]

/-- Concrete due queued row carrying the tag list `["email"]`. -/
def taggedRowC2 : RawRow :=
  { id := "c2", name := "n", task_data := .null, status := "queued",
    run_at := 0, interval := none, created_at := 0, updated_at := 0,
    tags := some (.arr [.str "email"]) }

/-- Witness for C2 at a concrete due row tagged `["email"]` and a worker
carrying `["email"]`. -/
theorem dequeue_tag_routing_witness :
    (taggedRowC2.status = statusText JobStatus.queued ∧
     taggedRowC2.run_at ≤ 5 ∧
     (taggedRowC2.tags = none ∨
      ∃ ss : List String, taggedRowC2.tags = some (Json.arr (ss.map Json.str)))) ∧
    ((∃ job db2, dequeue [taggedRowC2] ["email"] 5 = .ok (some job, db2)) ↔
      ((["email"] = ([] : List String) ∧ taggedRowC2.tags = none) ∨
       (["email"] ≠ ([] : List String) ∧
        ∃ ss : List String, taggedRowC2.tags = some (Json.arr (ss.map Json.str)) ∧
          ∃ t ∈ ["email"], t ∈ ss))) :=
  ⟨⟨rfl, by decide, Or.inr ⟨["email"], rfl⟩⟩,
   dequeue_tag_routing taggedRowC2 ["email"] 5 rfl (by decide)
     (Or.inr ⟨["email"], rfl⟩)⟩

/-- Concrete row whose status string does not parse. -/
def badStatusRow : RawRow :=
  { id := "bad", name := "n", task_data := Json.null, status := "archived",
    run_at := 0, interval := none, created_at := 0, updated_at := 0,
    tags := none }

/-- C3 counterexample: a fetched row whose status fails to parse is swallowed
by the claim path (the source maps the materializer result through
`to_job(&row).ok()` and flattens): the operation returns success with no job
and leaves the table untouched, instead of surfacing a dequeue error. -/
theorem dequeue_invalid_status_counterexample :
    (to_job badStatusRow).toOption = none ∧
    dequeueHandleRow [badStatusRow] 0 (some badStatusRow) =
      .ok (none, [badStatusRow]) ∧
    dequeue [badStatusRow] [] 0 = .ok (none, [badStatusRow]) :=
  ⟨rfl, rfl, rfl⟩

/-- C3 (amended): a fetched row whose status string fails to parse makes the
claim path return success with no job and no mutation; moreover the claim
query never selects such a row, because its filter demands the parseable
status string `queued`. -/
theorem dequeue_invalid_status_amended (db : List RawRow) (now : Int)
    (r : RawRow) (h : parseStatus r.status = none) :
    dequeueHandleRow db now (some r) = .ok (none, db) ∧
    ∀ workerTags, selectEligible db workerTags now ≠ some r := by
  constructor
  · simp [dequeueHandleRow, to_job, h, Except.toOption]
  · intro workerTags hsel
    have hel : eligible now workerTags r = true :=
      (List.mem_filter.1 (pickEarliest_mem hsel)).2
    have hq := (eligible_iff.1 hel).1
    rw [hq] at h
    simp [parseStatus, statusText] at h

/-- Witness for the amended C3 at the concrete unparseable row. -/
theorem dequeue_invalid_status_amended_witness :
    parseStatus badStatusRow.status = none ∧
    (dequeueHandleRow [] 0 (some badStatusRow) = .ok (none, []) ∧
     ∀ workerTags, selectEligible [] workerTags 0 ≠ some badStatusRow) :=
  ⟨rfl, dequeue_invalid_status_amended [] 0 badStatusRow rfl⟩

/-- C4: `complete_job` with no interval moves the row with the given id to
status Completed with `run_at = NOW()` and `updated_at = NOW()`; with interval
i (milliseconds) it moves it to status Queued with `run_at = NOW() + i` and
`updated_at = NOW()`; the id is kept, every other row is untouched, and the
transition ignores the current status of the row. -/
theorem complete_job_transition (db : List RawRow) (jid : String)
    (intervalMs : Option Int) (now : Int) (i : Nat) (r : RawRow)
    (h : db[i]? = some r) :
    (completeJob db jid intervalMs now)[i]? = some
      (if r.id = jid then
        { r with
          status := (match intervalMs with
            | none => statusText JobStatus.completed
            | some _ => statusText JobStatus.queued),
          run_at := (match intervalMs with
            | none => now
            | some ms => now + ms),
          updated_at := now }
      else r) := by
  cases intervalMs <;> simp [completeJob, List.getElem?_map, h]

/-- Concrete queued row for the C4 witness. -/
def rowC4 : RawRow :=
  { id := "j4", name := "n", task_data := Json.null, status := "queued",
    run_at := 0, interval := some 250, created_at := 0, updated_at := 0,
    tags := none }

/-- Witness for C4: completing the concrete row with a 250 ms interval
requeues it at now + 250. -/
theorem complete_job_transition_witness :
    ([rowC4][0]? = some rowC4) ∧
    (completeJob [rowC4] "j4" (some 250) 1000)[0]? = some
      { rowC4 with status := statusText JobStatus.queued, run_at := 1250,
                   updated_at := 1000 } :=
  ⟨rfl, by
    have hc := complete_job_transition [rowC4] "j4" (some 250) 1000 0 rowC4 rfl
    simpa [rowC4] using hc⟩

/-- C5 (amended): `fail_job` moves the row with the given id to status Failed,
sets `updated_at = NOW()`, and concatenates the object with the single field
`error` into `task_data` with jsonb semantics: an object merges the error
field in; an array gets the error object appended as one more element; any
other JSON value becomes the two-element array of the original value and the
error object.  No other column of the row changes and other rows are
untouched. -/
theorem fail_job_transition (db : List RawRow) (jid msg : String) (now : Int)
    (i : Nat) (r : RawRow) (h : db[i]? = some r) :
    (failJob db jid msg now)[i]? = some
      (if r.id = jid then
        { r with status := statusText JobStatus.failed, updated_at := now,
                 task_data := (match r.task_data with
                   | .obj kvs => .obj (objMergeRight kvs [("error", .str msg)])
                   | .arr xs => .arr (xs ++ [.obj [("error", .str msg)]])
                   | other => .arr [other, .obj [("error", .str msg)]]) }
      else r) := by
  by_cases hid : r.id = jid
  · cases ht : r.task_data <;>
      simp [failJob, List.getElem?_map, h, hid, jsonbConcat,
            jsonbToArrayElems, ht]
  · simp [failJob, List.getElem?_map, h, hid]

/-- Concrete row whose data is the JSON array with two number elements. -/
def arrayDataRow : RawRow :=
  { id := "j5", name := "n", task_data := Json.arr [Json.num 1, Json.num 2],
    status := "queued", run_at := 0, interval := none, created_at := 0,
    updated_at := 0, tags := none }

/-- C5 counterexample: failing a job whose data is the array `[1, 2]` appends
the error object, giving the three-element array `[1, 2, {error}]`, not the
two-element array `[[1, 2], {error}]` that the claim predicts for non-object
data. -/
theorem fail_job_concat_counterexample :
    ((failJob [arrayDataRow] "j5" "boom" 7).map (fun r2 => r2.task_data) =
      [Json.arr [Json.num 1, Json.num 2,
                 Json.obj [("error", Json.str "boom")]]]) ∧
    Json.arr [Json.num 1, Json.num 2, Json.obj [("error", Json.str "boom")]] ≠
      Json.arr [Json.arr [Json.num 1, Json.num 2],
                Json.obj [("error", Json.str "boom")]] :=
  ⟨rfl, by simp⟩

/-- Concrete row whose data is a JSON object, for the C5 witness. -/
def objDataRow : RawRow :=
  { id := "j5o", name := "n",
    task_data := Json.obj [("user_id", Json.num 1)], status := "queued",
    run_at := 0, interval := none, created_at := 0, updated_at := 0,
    tags := none }

/-- Witness for the amended C5: failing the concrete object-data row merges
the error field into the object. -/
theorem fail_job_transition_witness :
    ([objDataRow][0]? = some objDataRow) ∧
    (failJob [objDataRow] "j5o" "boom" 7)[0]? = some
      { objDataRow with status := statusText JobStatus.failed,
                        updated_at := 7,
                        task_data := Json.obj [("user_id", Json.num 1),
                                               ("error", Json.str "boom")] } :=
  ⟨rfl, by
    have hc := fail_job_transition [objDataRow] "j5o" "boom" 7 0 objDataRow rfl
    simpa [objDataRow, objMergeRight] using hc⟩

/-- C6: `cancel_jobs_by_name` moves to Cancelled (with `updated_at = NOW()`)
exactly the rows whose name matches and whose status is Queued; every other
row, in particular every Processing row of that name, is returned unchanged. -/
theorem cancel_jobs_by_name_spec (db : List RawRow) (name : String)
    (now : Int) (i : Nat) (r : RawRow) (h : db[i]? = some r) :
    ((r.name = name ∧ r.status = statusText JobStatus.queued) →
        (cancelJobsByName db name now)[i]? = some
          { r with status := statusText JobStatus.cancelled,
                   updated_at := now }) ∧
    (¬(r.name = name ∧ r.status = statusText JobStatus.queued) →
        (cancelJobsByName db name now)[i]? = some r) := by
  constructor <;> intro hc <;>
    simp [cancelJobsByName, List.getElem?_map, h, hc]

/-- Concrete queued row for the C6 witness. -/
def rowC6 : RawRow :=
  { id := "j6", name := "UserAccountActivation", task_data := Json.null,
    status := "queued", run_at := 0, interval := none, created_at := 0,
    updated_at := 0, tags := none }

/-- Witness for C6: the concrete queued row of the matching name is
cancelled. -/
theorem cancel_jobs_by_name_spec_witness :
    ([rowC6][0]? = some rowC6) ∧
    (cancelJobsByName [rowC6] "UserAccountActivation" 9)[0]? = some
      { rowC6 with status := statusText JobStatus.cancelled,
                   updated_at := 9 } :=
  ⟨rfl,
   (cancel_jobs_by_name_spec [rowC6] "UserAccountActivation" 9 0 rowC6
       rfl).1 ⟨rfl, rfl⟩⟩

/-- C7: `requeue` moves back to Queued (with `updated_at = NOW()`) exactly the
rows whose status is Processing and whose `updated_at` is at least
`age_minutes` minutes old; rows in any other status, and fresher Processing
rows, are returned unchanged. -/
theorem requeue_spec (db : List RawRow) (ageMinutes now : Int) (i : Nat)
    (r : RawRow) (h : db[i]? = some r) :
    ((r.status = statusText JobStatus.processing ∧
        r.updated_at ≤ now - ageMinutes * 60000) →
      (requeueStalled db ageMinutes now)[i]? = some
        { r with status := statusText JobStatus.queued, updated_at := now }) ∧
    (¬(r.status = statusText JobStatus.processing ∧
        r.updated_at ≤ now - ageMinutes * 60000) →
      (requeueStalled db ageMinutes now)[i]? = some r) := by
  constructor <;> intro hc <;>
    simp [requeueStalled, List.getElem?_map, h, hc]

/-- Concrete stalled Processing row for the C7 witness (20 minutes old at
`now = 1200000`). -/
def rowC7 : RawRow :=
  { id := "j7", name := "n", task_data := Json.null, status := "processing",
    run_at := 0, interval := none, created_at := 0, updated_at := 0,
    tags := none }

/-- Witness for C7: with a 10 minute threshold the concrete 20-minute-old
Processing row is requeued. -/
theorem requeue_spec_witness :
    ([rowC7][0]? = some rowC7) ∧
    (requeueStalled [rowC7] 10 1200000)[0]? = some
      { rowC7 with status := statusText JobStatus.queued,
                   updated_at := 1200000 } :=
  ⟨rfl,
   (requeue_spec [rowC7] 10 1200000 0 rowC7 rfl).1 ⟨rfl, by decide⟩⟩

theorem clearOlderDeletes_eq_true {ageDays : Int}
    {status : Option (List JobStatus)} {now : Int} {r : RawRow} :
    clearOlderDeletes ageDays status now r = true ↔
      r.created_at < now - ageDays * 86400000 ∧
        (∀ ss, status = some ss → ss ≠ [] → r.status ∈ ss.map statusText) := by
  cases status with
  | none => simp [clearOlderDeletes]
  | some ss =>
    by_cases hss : ss = []
    · subst hss
      simp [clearOlderDeletes]
    · have hne : ss.isEmpty = false := by
        simpa [List.isEmpty_iff] using hss
      simp [clearOlderDeletes, hne, List.any_eq_true, hss]

/-- C8 (amended): `clear_jobs_older_than` keeps exactly the rows that are not
older than `age_days` days, or — when a non-empty status set is given — whose
status is outside that set; an empty status set imposes no restriction (the
source appends the `status IN` clause only for a non-empty set), so every row
old enough is deleted. -/
theorem clear_jobs_older_than_membership (db : List RawRow) (ageDays : Int)
    (status : Option (List JobStatus)) (now : Int) (r : RawRow) :
    r ∈ clearJobsOlderThan db ageDays status now ↔
      r ∈ db ∧ (¬(r.created_at < now - ageDays * 86400000) ∨
        (∃ ss, status = some ss ∧ ss ≠ [] ∧ r.status ∉ ss.map statusText)) := by
  rw [clearJobsOlderThan, List.mem_filter]
  apply and_congr_right
  intro _
  rw [Bool.not_eq_true']
  rw [← Bool.not_eq_true, clearOlderDeletes_eq_true]
  constructor
  · intro hno
    by_cases hold : r.created_at < now - ageDays * 86400000
    · right
      have h2 : ¬(∀ ss, status = some ss → ss ≠ [] →
          r.status ∈ ss.map statusText) := fun hall => hno ⟨hold, hall⟩
      push_neg at h2
      exact h2
    · exact Or.inl hold
  · rintro (hnold | ⟨ss, hss, hne, hnotin⟩) ⟨hold, hall⟩
    · exact hnold hold
    · exact hnotin (hall ss hss hne)

/-- Concrete two-day-old Completed row for the C8 counterexample. -/
def oldRowC8 : RawRow :=
  { id := "j8", name := "n", task_data := Json.null, status := "completed",
    run_at := 0, interval := none, created_at := 0, updated_at := 0,
    tags := none }

/-- C8 counterexample: with the empty status set, `clear_jobs_older_than`
deletes the two-day-old row (the empty set imposes no restriction), while the
claim — deletion restricted to rows whose status lies in the empty set —
predicts that the row survives. -/
theorem clear_older_empty_status_counterexample :
    clearJobsOlderThan [oldRowC8] 1 (some []) 172800000 = [] ∧
    clearJobsOlderThan [oldRowC8] 1 (some []) 172800000 ≠ [oldRowC8] := by
  refine ⟨rfl, ?_⟩
  intro hcon
  have h0 : ([] : List RawRow) = [oldRowC8] := by
    calc ([] : List RawRow)
        = clearJobsOlderThan [oldRowC8] 1 (some []) 172800000 := by rfl
      _ = [oldRowC8] := hcon
  exact absurd h0 (by simp)

/-- C9: the handler wrapper built by `register_worker` converts a panic of
the perform routine into an ordinary error return (the worker task survives
because the wrapper is total): the error message is the panic payload when it
is a String or a string slice, and the generic unknown-panic message
otherwise. -/
theorem handler_panic_isolation {Args : Type} (deserialized : Except String Args)
    (perform : Args → PerformOutcome) (a : Args) (p : PanicPayload)
    (hd : deserialized = .ok a) (hp : perform a = .panicked p) :
    runWrappedHandler deserialized perform = .error (panicMessage p) ∧
    (∀ s, p = .ofString s → panicMessage p = s) ∧
    (∀ s, p = .ofStrRef s → panicMessage p = s) ∧
    (p = .opaquePayload → panicMessage p = "Unknown panic occurred") := by
  subst hd
  refine ⟨by simp [runWrappedHandler, hp], ?_, ?_, ?_⟩
  · rintro s rfl; rfl
  · rintro s rfl; rfl
  · rintro rfl; rfl

/-- Witness for C9: a perform routine that panics with the String payload
`boom` makes the wrapped handler return the error `boom`. -/
theorem handler_panic_isolation_witness :
    runWrappedHandler (Except.ok ())
      (fun _ : Unit => PerformOutcome.panicked (.ofString "boom")) =
      Except.error "boom" :=
  (handler_panic_isolation (Except.ok ())
    (fun _ : Unit => PerformOutcome.panicked (.ofString "boom")) ()
    (.ofString "boom") rfl rfl).1

theorem lookup_append_skip {H : Type} (l : List (String × H)) (name : String)
    (h : H) (hl : ∀ kv ∈ l, (kv.1 == name) = false) :
    List.lookup name (l ++ [(name, h)]) = some h := by
  induction l with
  | nil => simp [List.lookup]
  | cons kv rest ih =>
    have hk : (name == kv.1) = false := by
      have := hl kv (List.mem_cons_self kv rest)
      simp only [beq_eq_false_iff_ne] at this ⊢
      exact fun hc => this hc.symm
    simp only [List.cons_append, List.lookup, hk]
    exact ih (fun kv2 hm => hl kv2 (List.mem_cons_of_mem kv hm))

theorem lookup_insertHandler {H : Type} (m : List (String × H))
    (name : String) (h : H) :
    List.lookup name (insertHandler m name h) = some h := by
  refine lookup_append_skip _ name h ?_
  intro kv hkv
  have := (List.mem_filter.1 hkv).2
  simpa using this

/-- C10: `register_worker` fails iff the handler map is already shared (a
clone of the `Arc` is outstanding); a clone always makes the next
registration fail with the source error message; and before any sharing,
registering a second handler under an already-used name succeeds and
replaces the previous handler. -/
theorem register_worker_sharing {H : Type} (reg : JobRegistry H)
    (name : String) (h1 h2 : H) :
    ((registerWorker reg name h1).isOk ↔ reg.sharedSnapshots = 0) ∧
    (registerWorker (cloneHandlers reg) name h1 =
      .error "cannot register worker") ∧
    (reg.sharedSnapshots = 0 →
      ∃ reg2, registerWorker reg name h1 = .ok reg2 ∧
        ∃ reg3, registerWorker reg2 name h2 = .ok reg3 ∧
          List.lookup name reg3.handlers = some h2) := by
  refine ⟨?_, ?_, ?_⟩
  · by_cases hs : reg.sharedSnapshots = 0 <;>
      simp [registerWorker, hs, Except.isOk, Except.toBool]
  · simp [registerWorker, cloneHandlers]
  · intro hs
    refine ⟨{ reg with handlers := insertHandler reg.handlers name h1 },
            ?_,
            { reg with handlers :=
                insertHandler (insertHandler reg.handlers name h1) name h2 },
            ?_, ?_⟩
    · simp [registerWorker, hs]
    · simp [registerWorker, hs]
    · exact lookup_insertHandler _ name h2

/-- Witness for C10: on a fresh unshared registry over `Nat` handlers,
registering the handler 1 and then the handler 2 under the same name
succeeds, and the name finally maps to 2. -/
theorem register_worker_sharing_witness :
    (JobRegistry.mk ([] : List (String × Nat)) 0).sharedSnapshots = 0 ∧
    (∃ reg2, registerWorker (JobRegistry.mk ([] : List (String × Nat)) 0)
        "w" 1 = .ok reg2 ∧
      ∃ reg3, registerWorker reg2 "w" 2 = .ok reg3 ∧
        List.lookup "w" reg3.handlers = some 2) :=
  ⟨rfl,
   (register_worker_sharing (JobRegistry.mk ([] : List (String × Nat)) 0)
      "w" 1 2).2.2 rfl⟩

end LocoPg
